import Mathlib

/-!
Verification of the LLM response-parsing / normalization core of the
Academic Insight Hub repository (src/llm_utils.py), together with the
report re-scanning done by src/pages/question_generator.py.

The Python code is shallowly embedded:
  * JSON values are modelled by the inductive type `JVal`; numbers are
    modelled as rationals (the numeric values handled by the code are
    decimal literals, clamps and integer coercions, for which rational
    arithmetic agrees with Python float/int arithmetic).
  * `json.loads` is modelled by `jsonParse`, a fuel-indexed recursive
    descent parser for the JSON grammar accepted by Python (strict mode);
    unicode escapes map through `Char.ofNat`, and the nonstandard
    NaN/Infinity literals that Python additionally accepts are not
    modelled (no analysed path feeds them in).
  * The concrete regular expressions of the source are modelled by
    dedicated scanning functions whose semantics (leftmost match, greedy
    sub-patterns, the alternation order of the fence-stripping pattern)
    are spelled out at the definition site.
  * Python exceptions that escape to an enclosing handler are modelled
    with `Except String`; the carried message text is descriptive only,
    except where the source returns a fixed literal message, which is
    reproduced exactly.
  * Character classes (\s, \d, \w, str.strip, str.lower) are modelled on
    their ASCII subsets; every string the analysed code paths and claims
    manipulate is ASCII.
-/

set_option maxRecDepth 4096

/- The Batteries rational operations are irreducible by default; restore
definitional unfolding locally so that concrete runs of the embedded code
can be checked by rfl. -/
attribute [local semireducible] Rat.mul Rat.add Rat.sub Rat.inv Rat.ofScientific

/-! ## Character classes -/

/-- ASCII digit test: the regex class \d (on the inputs analysed). -/
def isDigitC (c : Char) : Bool := 48 ≤ c.toNat && c.toNat ≤ 57

/-- ASCII word-character test: the regex class \w (on the inputs analysed). -/
def isWordC (c : Char) : Bool :=
  isDigitC c || (65 ≤ c.toNat && c.toNat ≤ 90) || (97 ≤ c.toNat && c.toNat ≤ 122) || c = '_'

/-- The whitespace set of JSON (used by json.loads): space, tab, LF, CR. -/
def isJsonWs (c : Char) : Bool := c = ' ' || c = '\t' || c = '\n' || c = '\r'

/-- The ASCII whitespace set of Python str.strip and of the regex class \s. -/
def isPyWs (c : Char) : Bool :=
  c = ' ' || c = '\t' || c = '\n' || c = '\r' || c = Char.ofNat 11 || c = Char.ofNat 12

/-- ASCII lower-casing of one character, as Python str.lower acts on ASCII. -/
def lowerChar (c : Char) : Char :=
  if 65 ≤ c.toNat && c.toNat ≤ 90 then Char.ofNat (c.toNat + 32) else c

/-- Python str.lower (ASCII fragment). -/
def lowerStr (s : String) : String := String.mk (s.data.map lowerChar)

/-! ## List scanning primitives -/

/-- Split a list into its maximal prefix of characters satisfying p, and the rest. -/
def spanP (p : Char → Bool) : List Char → (List Char × List Char)
  | [] => ([], [])
  | c :: cs =>
    if p c then
      let r := spanP p cs
      (c :: r.1, r.2)
    else ([], c :: cs)

/-- Match a literal at the front of a list, returning the remainder. -/
def dropLit : List Char → List Char → Option (List Char)
  | [], l => some l
  | _ :: _, [] => none
  | p :: ps, c :: cs => if p = c then dropLit ps cs else none

/-- Does the first list occur as a prefix of the second? -/
def startsWithL : List Char → List Char → Bool
  | [], _ => true
  | _ :: _, [] => false
  | p :: ps, c :: cs => p == c && startsWithL ps cs

/-- Substring occurrence, the semantics of the Python operator `in` on strings
(the empty pattern occurs in every string). -/
def hasSubL : List Char → List Char → Bool
  | [], pat => pat.isEmpty
  | l@(_ :: cs), pat => startsWithL pat l || hasSubL cs pat

/-- Python substring test s₂ in s₁ (as Booleans). -/
def hasSubStr (hay sub : String) : Bool := hasSubL hay.data sub.data

/-- Python str.strip: remove leading and trailing whitespace. -/
def pyStrip (s : String) : String :=
  String.mk (((s.data.dropWhile isPyWs).reverse.dropWhile isPyWs).reverse)

/-! ## Decimal rendering of naturals and integers (Python str of int) -/

/-- The decimal digit character for n (callers only use n below 10). -/
def digitChar (n : Nat) : Char := (['0','1','2','3','4','5','6','7','8','9']).getD n '9'

/-- Numeric value of a decimal digit character. -/
def digitVal (c : Char) : Nat := c.toNat - 48

/-- Fuel-indexed decimal rendering, most significant digit first. -/
def natDigitsAux : Nat → Nat → List Char
  | 0, _ => []
  | f+1, n => if n < 10 then [digitChar n] else natDigitsAux f (n / 10) ++ [digitChar (n % 10)]

/-- Decimal digits of a natural number (the fuel n+1 always suffices). -/
def natDigits (n : Nat) : List Char := natDigitsAux (n + 1) n

/-- Value of a digit list read most significant digit first. -/
def digitsVal (l : List Char) : Nat := l.foldl (fun a c => a * 10 + digitVal c) 0

/-- Python str() of an int. -/
def intStr (z : Int) : String :=
  if z < 0 then "-" ++ String.mk (natDigits z.natAbs) else String.mk (natDigits z.toNat)

/-! ## JSON values and Python coercion semantics -/

/-- JSON values as produced by json.loads.  Python distinguishes int from
float; both are carried here as one rational payload (all analysed
operations coerce through float() or int() anyway). -/
inductive JVal where
  | jnull : JVal
  | jbool : Bool → JVal
  | jnum : ℚ → JVal
  | jstr : String → JVal
  | jarr : List JVal → JVal
  | jobj : List (String × JVal) → JVal

/-- Lookup in a parsed JSON object: Python dict.get, none when absent.
Objects built by `jsonParse` have unique keys (see `dictInsert`). -/
def jGet (fields : List (String × JVal)) (k : String) : Option JVal :=
  (fields.find? (fun kv => kv.1 == k)).map (fun kv => kv.2)

/-- Python dict insertion: replace the value in place when the key exists,
otherwise append the pair (insertion order is preserved, as in dict). -/
def dictInsert : List (String × JVal) → String → JVal → List (String × JVal)
  | [], k, v => [(k, v)]
  | (k', v') :: rest, k, v =>
    if k' == k then (k', v) :: rest else (k', v') :: dictInsert rest k v

/-- Build a Python dict from parsed key/value pairs: on duplicate keys the
last value wins while the key keeps its first position, as in dict(). -/
def dictify (ps : List (String × JVal)) : List (String × JVal) :=
  ps.foldl (fun acc kv => dictInsert acc kv.1 kv.2) []

/-- Truncation of a rational toward zero: the behaviour of Python int()
applied to a float. -/
def pyTrunc (q : ℚ) : Int :=
  if 0 ≤ q.num then ((q.num.toNat / q.den : Nat) : Int) else -((q.num.natAbs / q.den : Nat) : Int)

/-- Strict integer-literal parse: Python int() applied to a string
(surrounding whitespace and a sign are allowed, nothing else). -/
def parseIntStr (s : String) : Option Int :=
  let l := (s.data.dropWhile isPyWs)
  let core := l.reverse.dropWhile isPyWs |>.reverse
  let (neg, rest) :=
    match core with
    | '-' :: r => (true, r)
    | '+' :: r => (false, r)
    | r => (false, r)
  match rest with
  | [] => none
  | _ =>
    if rest.all isDigitC then
      some (if neg then -(digitsVal rest : Int) else (digitsVal rest : Int))
    else none

/-- Simple decimal parse: Python float() applied to a string (sign and one
decimal point; exponent forms do not occur on the analysed paths). -/
def parseFloatStr (s : String) : Option ℚ :=
  let l := (s.data.dropWhile isPyWs)
  let core := l.reverse.dropWhile isPyWs |>.reverse
  let (neg, rest) :=
    match core with
    | '-' :: r => (true, r)
    | '+' :: r => (false, r)
    | r => (false, r)
  let (ip, rest2) := spanP isDigitC rest
  match rest2 with
  | [] =>
    if ip.isEmpty then none
    else some ((if neg then -1 else 1) * (digitsVal ip : ℚ))
  | '.' :: r =>
    let (fp, rest3) := spanP isDigitC r
    if rest3.isEmpty && !(ip.isEmpty && fp.isEmpty) then
      some ((if neg then -1 else 1) *
        ((digitsVal (ip ++ fp) : ℚ) / (10 ^ fp.length : ℚ)))
    else none
  | _ => none

/-- Python float() on a JSON value: none models a raised
TypeError/ValueError. -/
def pyFloat : JVal → Option ℚ
  | .jnum q => some q
  | .jbool b => some (if b then 1 else 0)
  | .jstr s => parseFloatStr s
  | _ => none

/-- Python int() on a JSON value: none models a raised
TypeError/ValueError. -/
def pyInt : JVal → Option Int
  | .jnum q => some (pyTrunc q)
  | .jbool b => some (if b then 1 else 0)
  | .jstr s => parseIntStr s
  | _ => none

/-- Python truthiness of a JSON value. -/
def pyFalsy : JVal → Bool
  | .jnull => true
  | .jbool b => !b
  | .jnum q => q == 0
  | .jstr s => s.isEmpty
  | .jarr l => l.isEmpty
  | .jobj f => f.isEmpty

/-- Fractional decimal digits of r/d (0 ≤ r < d), fuel-bounded; terminates
exactly for the 10-smooth denominators JSON literals produce. -/
def fracDigits (d : Nat) : Nat → Nat → List Char
  | 0, _ => []
  | f+1, r => if r = 0 then [] else digitChar (r * 10 / d) :: fracDigits d f (r * 10 % d)

/-- Python str() of a float holding the rational q: shortest exact decimal
for terminating decimals (the only floats the analysed paths format). -/
def fmtQ (q : ℚ) : String :=
  if q.den = 1 then intStr q.num ++ ".0"
  else
    (if q.num < 0 then "-" else "") ++
      String.mk (natDigits (q.num.natAbs / q.den)) ++ "." ++
      String.mk (fracDigits q.den 40 (q.num.natAbs % q.den))

/-- Python str() of a JSON value, as interpolated by an f-string.  The
container cases render Python repr syntax only approximately; no analysed
claim formats a container. -/
def pyToStr : JVal → String
  | .jnull => "None"
  | .jbool b => if b then "True" else "False"
  | .jnum q => if q.den = 1 then intStr q.num else fmtQ q
  | .jstr s => s
  | .jarr _ => "[...]"
  | .jobj _ => "\x7b...\x7d"

/-! ## The JSON parser (model of json.loads) -/

/-- Escape characters accepted after a backslash in a JSON string. -/
def escChar : Char → Option Char
  | '"' => some '"'
  | '\\' => some '\\'
  | '/' => some '/'
  | 'b' => some (Char.ofNat 8)
  | 'f' => some (Char.ofNat 12)
  | 'n' => some '\n'
  | 'r' => some '\r'
  | 't' => some '\t'
  | _ => none

/-- Value of a hexadecimal digit character. -/
def hexVal (c : Char) : Option Nat :=
  if 48 ≤ c.toNat && c.toNat ≤ 57 then some (c.toNat - 48)
  else if 97 ≤ c.toNat && c.toNat ≤ 102 then some (c.toNat - 87)
  else if 65 ≤ c.toNat && c.toNat ≤ 70 then some (c.toNat - 55)
  else none

/-- Body of a JSON string after the opening quote: returns the decoded
characters and the input after the closing quote.  Unescaped control
characters are rejected (json.loads strict mode). -/
def parseStrBody : List Char → Option (List Char × List Char)
  | [] => none
  | '"' :: r => some ([], r)
  | '\\' :: r =>
    match r with
    | [] => none
    | 'u' :: h1 :: h2 :: h3 :: h4 :: r3 =>
      match hexVal h1, hexVal h2, hexVal h3, hexVal h4 with
      | some a, some b, some c, some d =>
        match parseStrBody r3 with
        | some (cs, rest) => some (Char.ofNat (((a * 16 + b) * 16 + c) * 16 + d) :: cs, rest)
        | none => none
      | _, _, _, _ => none
    | e :: r2 =>
      match escChar e with
      | some c =>
        match parseStrBody r2 with
        | some (cs, rest) => some (c :: cs, rest)
        | none => none
      | none => none
  | c :: r =>
    if c.toNat < 32 then none
    else
      match parseStrBody r with
      | some (cs, rest) => some (c :: cs, rest)
      | none => none

/-- One JSON number token at the front of the input, per the json module
number grammar: optional minus, integer part without leading zeros,
optional fraction, optional exponent.  Greedy, consuming only a
well-formed token (a bare trailing dot or exponent is left unconsumed). -/
def parseNumber (l : List Char) : Option (ℚ × List Char) :=
  let (neg, l1) :=
    match l with
    | '-' :: r => (true, r)
    | r => (false, r)
  let (ds, l2) := spanP isDigitC l1
  match ds with
  | [] => none
  | d0 :: drest =>
    if d0 = '0' && !drest.isEmpty then none
    else
      let (fds, l3) :=
        match l2 with
        | '.' :: r =>
          let (fs, r') := spanP isDigitC r
          if fs.isEmpty then (([] : List Char), l2) else (fs, r')
        | _ => ([], l2)
      let (ex, l4) :=
        match l3 with
        | 'e' :: r | 'E' :: r =>
          let (esgn, r1) :=
            match r with
            | '-' :: rr => (true, rr)
            | '+' :: rr => (false, rr)
            | rr => (false, rr)
          let (es, r2) := spanP isDigitC r1
          if es.isEmpty then ((0 : Int), l3)
          else ((if esgn then -(digitsVal es : Int) else (digitsVal es : Int)), r2)
        | _ => ((0 : Int), l3)
      let mant : ℚ := (digitsVal (ds ++ fds) : ℚ)
      let scale : Int := ex - (fds.length : Int)
      let p10 : ℚ := if 0 ≤ scale then ((10 ^ scale.toNat : Nat) : ℚ) else 1 / ((10 ^ scale.natAbs : Nat) : ℚ)
      some ((if neg then -1 else 1) * mant * p10, l4)

/-- Drop JSON whitespace. -/
def dropWs (l : List Char) : List Char := l.dropWhile isJsonWs

/-- The fuel-indexed triple (value parser, array items parser, object items
parser) of the recursive descent JSON grammar; each level of nesting and
each list element consumes one unit of fuel, so any fuel beyond the input
length is inert. -/
def parsers : Nat → ((List Char → Option (JVal × List Char)) ×
    (List Char → Option (List JVal × List Char)) ×
    (List Char → Option (List (String × JVal) × List Char)))
  | 0 => (fun _ => none, fun _ => none, fun _ => none)
  | fuel+1 =>
    let P := parsers fuel
    (fun l =>
      match dropWs l with
      | 'n' :: 'u' :: 'l' :: 'l' :: r => some (.jnull, r)
      | 't' :: 'r' :: 'u' :: 'e' :: r => some (.jbool true, r)
      | 'f' :: 'a' :: 'l' :: 's' :: 'e' :: r => some (.jbool false, r)
      | '"' :: r =>
        match parseStrBody r with
        | some (cs, rest) => some (.jstr (String.mk cs), rest)
        | none => none
      | '[' :: r =>
        (match dropWs r with
         | ']' :: r2 => some (.jarr [], r2)
         | r1 =>
           match P.2.1 r1 with
           | some (vs, r2) => some (.jarr vs, r2)
           | none => none)
      | '\x7b' :: r =>
        (match dropWs r with
         | '\x7d' :: r2 => some (.jobj [], r2)
         | r1 =>
           match P.2.2 r1 with
           | some (ps, r2) => some (.jobj (dictify ps), r2)
           | none => none)
      | l1 =>
        match parseNumber l1 with
        | some (q, r) => some (.jnum q, r)
        | none => none,
     fun l =>
      match P.1 l with
      | some (v, r) =>
        (match dropWs r with
         | ',' :: r2 =>
           (match P.2.1 r2 with
            | some (vs, r3) => some (v :: vs, r3)
            | none => none)
         | ']' :: r2 => some ([v], r2)
         | _ => none)
      | none => none,
     fun l =>
      match dropWs l with
      | '"' :: r =>
        (match parseStrBody r with
         | some (ks, r1) =>
           (match dropWs r1 with
            | ':' :: r2 =>
              (match P.1 r2 with
               | some (v, r3) =>
                 (match dropWs r3 with
                  | ',' :: r4 =>
                    (match P.2.2 r4 with
                     | some (ps, r5) => some ((String.mk ks, v) :: ps, r5)
                     | none => none)
                  | '\x7d' :: r4 => some ([(String.mk ks, v)], r4)
                  | _ => none)
               | none => none)
            | _ => none)
         | none => none)
      | _ => none)

/-- json.loads: parse one JSON document, allowing surrounding whitespace
and rejecting trailing data; none models a raised JSONDecodeError. -/
def jsonParse (s : String) : Option JVal :=
  match (parsers (s.data.length + 8)).1 s.data with
  | some (v, r) => if (dropWs r).isEmpty then some v else none
  | none => none

/-! ## The Evaluator (analyze_question, src/llm_utils.py lines 148-251)

`analyzeResponse` models everything from line 152 on, applied to the
stripped message content of line 149; `analyzeQuestion` adds the
gateway-unavailable early return of lines 62-65. -/

/-- The fixed placeholder for empty improvement suggestions (lines 197-198,
227). -/
def placeholderSugg : String := "No specific improvement suggestions provided."

/-- The literal "```json". -/
def jsonFenceL : List Char := "```json".data

/-- The literal "```". -/
def ticksL : List Char := "```".data

/-- One global pass of re.sub with the pattern alternating "```json"
followed by greedy \s*, else greedy \s* followed by "```"; each match is
deleted and scanning resumes after it, otherwise one character is kept and
scanning advances by one (re.sub semantics; the backtracking of the greedy
\s* of the second alternative never helps, because a backtick is not
whitespace).  Fuel-indexed; every step consumes at least one character, so
fuel beyond the input length is inert. -/
def stripFencesL : Nat → List Char → List Char
  | 0, l => l
  | _+1, [] => []
  | f+1, c :: cs =>
    match dropLit jsonFenceL (c :: cs) with
    | some r => stripFencesL f (r.dropWhile isPyWs)
    | none =>
      let (_, r) := spanP isPyWs (c :: cs)
      match dropLit ticksL r with
      | some r2 => stripFencesL f r2
      | none => c :: stripFencesL f cs

/-- Lines 156-158: strip Markdown fence markers everywhere, then strip
surrounding whitespace.  Every later use of response_text in the source
refers to this cleaned text, because line 156 reassigns the variable. -/
def cleanText (s : String) : String :=
  pyStrip (String.mk (stripFencesL (s.data.length + 1) s.data))

/-- The regex search for a single-level brace span (line 221).  A match at
a position requires an opening brace, a run free of braces, and a closing
brace; at the first opening brace whose next brace is again an opening one
the engine fails and resumes at that brace, so the search equals: walk to
each opening brace in turn and test whether the next brace after it
closes.  Fuel-indexed; every step consumes at least one character. -/
def braceSpanL : Nat → List Char → Option (List Char)
  | 0, _ => none
  | _+1, [] => none
  | f+1, c :: cs =>
    if c = '\x7b' then
      let (mid, r) := spanP (fun x => !(x = '\x7b' || x = '\x7d')) cs
      match r with
      | '\x7d' :: _ => some ('\x7b' :: mid ++ ['\x7d'])
      | _ => braceSpanL f r
    else braceSpanL f cs

/-- The matched text of re.search for the brace-span pattern on a string. -/
def braceSpan (s : String) : Option String :=
  (braceSpanL (s.data.length + 1) s.data).map String.mk

/-- Lines 168-174: validation of difficulty_rating.  A missing or null
field is the early (null, error message) return, modelled by ok none; a
float() failure escapes to the outer handler, modelled by error; otherwise
the value is clamped into [1.0, 5.0]. -/
def normDifficulty (o : Option JVal) : Except String (Option ℚ) :=
  match o with
  | none => .ok none
  | some .jnull => .ok none
  | some v =>
    match pyFloat v with
    | none => .error "float() failed on difficulty_rating"
    | some q => .ok (some (max 1 (min 5 q)))

/-- Lines 176-182: validation of estimated_time.  A missing or null field
defaults to 5; an int() failure escapes to the outer handler; otherwise
the value is clamped into [1, 60]. -/
def normTime (o : Option JVal) : Except String Int :=
  match o with
  | none => .ok 5
  | some .jnull => .ok 5
  | some v =>
    match pyInt v with
    | none => .error "int() failed on estimated_time"
    | some t => .ok (max 1 (min 60 t))

/-- Lines 184-195: validation of student_level.  A missing or null field
defaults to Intermediate; on a string the value is lower-cased and matched
by substring (beginner before advanced); on any other type the attribute
access .lower() escapes to the outer handler. -/
def normLevel (o : Option JVal) : Except String String :=
  match o with
  | none => .ok "Intermediate"
  | some .jnull => .ok "Intermediate"
  | some (.jstr s) =>
    let low := lowerStr s
    .ok (if hasSubStr low "beginner" then "Beginner"
         else if hasSubStr low "advanced" then "Advanced"
         else "Intermediate")
  | some _ => .error "AttributeError: lower"

/-- Lines 197-198: any falsy improvement_suggestions value (absent, null,
empty string, zero, False, empty container) becomes the placeholder. -/
def normSugg (o : Option JVal) : String :=
  match o with
  | none => placeholderSugg
  | some v => if pyFalsy v then placeholderSugg else pyToStr v

/-- The f-string template of lines 201-211 (reused verbatim at lines
230-240): the formatted analysis report. -/
def mkReport (d : ℚ) (t : Int) (lvl sugg : String) : String :=
  "## Question Analysis\n\n**Difficulty Rating:** " ++ (fmtQ d ++
    ("/5.0\n\n**Estimated Time:** " ++ (intStr t ++
      (" minutes\n\n**Appropriate Student Level:** " ++ (lvl ++
        ("\n\n### Improvement Suggestions:\n" ++ (sugg ++ "\n")))))))

/-- Lines 163-213: the direct-parse path applied to a parsed JSON object. -/
def primary (fs : List (String × JVal)) : Except String (Option ℚ × String) :=
  match normDifficulty (jGet fs "difficulty_rating") with
  | .error e => .error e
  | .ok none => .ok (none, "Error: No difficulty rating provided in analysis")
  | .ok (some d) =>
    match normTime (jGet fs "estimated_time") with
    | .error e => .error e
    | .ok t =>
      match normLevel (jGet fs "student_level") with
      | .error e => .error e
      | .ok lvl => .ok (some d, mkReport d t lvl (normSugg (jGet fs "improvement_suggestions")))

/-- The direct-parse path on an arbitrary parsed JSON document: result.get
on a non-dict raises AttributeError, which escapes to the outer handler. -/
def primaryDispatch : JVal → Except String (Option ℚ × String)
  | .jobj fs => primary fs
  | _ => .error "AttributeError: get"

/-- Lines 219-247: the regex-extraction fallback on the cleaned text.  Any
failure inside it (no span, span does not parse, a coercion raises, the
span is not an object) falls through to the raw-text return of line 247.
Note that neither the difficulty nor the time is clamped here, and the
student level is not normalized. -/
def fallback (cleaned : String) : Option ℚ × String :=
  match braceSpan cleaned with
  | none => (some 3, "Analysis (raw): " ++ cleaned)
  | some sp =>
    match jsonParse sp with
    | some (.jobj fs) =>
      (match pyFloat ((jGet fs "difficulty_rating").getD (.jnum 3)) with
       | none => (some 3, "Analysis (raw): " ++ cleaned)
       | some dq =>
         match pyInt ((jGet fs "estimated_time").getD (.jnum 5)) with
         | none => (some 3, "Analysis (raw): " ++ cleaned)
         | some t =>
           (some dq, mkReport dq t
             (pyToStr ((jGet fs "student_level").getD (.jstr "Intermediate")))
             (pyToStr ((jGet fs "improvement_suggestions").getD (.jstr placeholderSugg)))))
    | _ => (some 3, "Analysis (raw): " ++ cleaned)

/-- Lines 152-247: analyze_question after a successful gateway call,
applied to the stripped response text of line 149.  An exception escaping
the direct-parse path reaches the outer handler of lines 249-251. -/
def analyzeResponse (s : String) : Option ℚ × String :=
  match jsonParse (cleanText s) with
  | some v =>
    (match primaryDispatch v with
     | .ok r => r
     | .error e => (none, "Error calling Groq API: " ++ e))
  | none => fallback (cleanText s)

/-- analyze_question including the gateway-unavailable early return of
lines 62-65. -/
def analyzeQuestion (clientOk : Bool) (response : String) : Option ℚ × String :=
  if clientOk then analyzeResponse response
  else (none, "Error: Groq client not initialized. Please check your API key configuration.")

/-! ## Report re-scanning (src/pages/question_generator.py lines 151-156) -/

/-- The literal part of the time pattern. -/
def timeMarkerL : List Char := "**Estimated Time:** ".data

/-- The literal tail of the time pattern. -/
def minutesLitL : List Char := " minutes".data

/-- The literal part of the level pattern. -/
def levelMarkerL : List Char := "**Appropriate Student Level:** ".data

/-- One match attempt of the escaped pattern for estimated time at the
front of the input: the marker literal, one or more digits (greedy; no
shorter digit run can be followed by the space of " minutes", so greedy
equals maximal), then the literal " minutes". -/
def matchTimeAt (l : List Char) : Option Nat :=
  match dropLit timeMarkerL l with
  | none => none
  | some r =>
    let (ds, r2) := spanP isDigitC r
    if ds.isEmpty then none
    else
      match dropLit minutesLitL r2 with
      | some _ => some (digitsVal ds)
      | none => none

/-- One match attempt of the escaped pattern for student level at the
front of the input: the marker literal then one or more word characters
(greedy). -/
def matchLevelAt (l : List Char) : Option String :=
  match dropLit levelMarkerL l with
  | none => none
  | some r =>
    let (ws, _) := spanP isWordC r
    if ws.isEmpty then none else some (String.mk ws)

/-- re.search: try the matcher at every position left to right and return
the first success. -/
def scanA {α : Type} (m : List Char → Option α) : List Char → Option α
  | [] => none
  | c :: cs =>
    match m (c :: cs) with
    | some v => some v
    | none => scanA m cs

/-- Extraction of the estimated time from an analysis report (line 151). -/
def scanTime (s : String) : Option Nat := scanA matchTimeAt s.data

/-- Extraction of the student level from an analysis report (line 155). -/
def scanLevel (s : String) : Option String := scanA matchLevelAt s.data

/-! ## The Generator (generate_questions, src/llm_utils.py lines 349-394) -/

/-- Scan to the first occurrence of a character, keeping it. -/
def dropUntil (t : Char) : List Char → Option (List Char)
  | [] => none
  | c :: cs => if c = t then some (c :: cs) else dropUntil t cs

/-- The matched text of the greedy bracket-span search with DOTALL
(line 357): from the first opening bracket to the last closing bracket of
the whole text, provided the latter lies after the former. -/
def extractArraySpan (s : String) : Option String :=
  match dropUntil '[' s.data with
  | none => none
  | some suf =>
    match dropUntil ']' suf.reverse with
    | none => none
    | some r => some (String.mk r.reverse)

/-- The Python membership test k in q (line 366): key lookup on a dict,
substring test on a string, element equality on a list, TypeError on the
remaining types. -/
def pyContains (q : JVal) (k : String) : Except String Bool :=
  match q with
  | .jobj fs => .ok (fs.any (fun kv => kv.1 == k))
  | .jstr s => .ok (hasSubStr s k)
  | .jarr l => .ok (l.any (fun v => match v with | .jstr s => s == k | _ => false))
  | _ => .error "TypeError: argument not iterable"

/-- The short-circuiting all() of line 366 over a key list. -/
def allKeysIn (q : JVal) : List String → Except String Bool
  | [] => .ok true
  | k :: ks =>
    match pyContains q k with
    | .error e => .error e
    | .ok false => .ok false
    | .ok true => allKeysIn q ks

/-- Line 366: the required-field check of one generated record. -/
def reqCheck (q : JVal) : Except String Bool :=
  allKeysIn q ["question_content", "question_type", "difficulty", "correct_answer"]

/-- Lines 372-376: estimated_time is coerced by int() when the key is
present (none models the ValueError escaping), and set to 5 when absent. -/
def coerceTime (fs1 : List (String × JVal)) : Option (List (String × JVal)) :=
  match jGet fs1 "estimated_time" with
  | some tv => (pyInt tv).map (fun (t : Int) => dictInsert fs1 "estimated_time" (.jnum (t : ℚ)))
  | none => some (dictInsert fs1 "estimated_time" (.jnum 5))

/-- Lines 378-380: student_level is set to Intermediate when absent;
present values are left untouched. -/
def addLevel (fs2 : List (String × JVal)) : List (String × JVal) :=
  if fs2.any (fun kv => kv.1 == "student_level") then fs2
  else dictInsert fs2 "student_level" (.jstr "Intermediate")

/-- Lines 370-380: in-place normalization of one surviving record:
difficulty coerced by float() and clamped into [1.0, 5.0]; estimated_time
coerced by int() when present and set to 5 when absent (no clamp);
student_level set to Intermediate when absent (present values are left
untouched).  A coercion failure or a non-dict record raises, escaping to
the outer handler. -/
def coerceElem (q : JVal) : Except String JVal :=
  match q with
  | .jobj fs =>
    (match jGet fs "difficulty" with
     | none => .error "KeyError: difficulty"
     | some dv =>
       match pyFloat dv with
       | none => .error "could not convert difficulty to float"
       | some x =>
         match coerceTime (dictInsert fs "difficulty" (.jnum (max 1 (min 5 x)))) with
         | none => .error "could not convert estimated_time to int"
         | some fs2 => .ok (.jobj (addLevel fs2)))
  | _ => .error "TypeError: not subscriptable"

/-- Lines 363-382: the validation loop.  A record failing the
required-field check is skipped; an exception on any record aborts the
whole loop (escaping to the outer handler of lines 392-394). -/
def processAll : List JVal → Except String (List JVal)
  | [] => .ok []
  | q :: qs =>
    match reqCheck q with
    | .error e => .error e
    | .ok false => processAll qs
    | .ok true =>
      match coerceElem q with
      | .error e => .error e
      | .ok q2 =>
        match processAll qs with
        | .ok out => .ok (q2 :: out)
        | .error e => .error e

/-- Lines 353-394: generate_questions after a successful gateway call.
The final wildcard covers both a failed parse of the span (the
JSONDecodeError handler of lines 388-390) and — unreachably, since a span
delimited by brackets can only parse as an array — a non-array parse. -/
def generateFromText (s : String) : List JVal :=
  match extractArraySpan s with
  | none => []
  | some sp =>
    match jsonParse sp with
    | some (.jarr qs) =>
      (match processAll qs with
       | .ok out => out
       | .error _ => [])
    | _ => []

/-- generate_questions including the gateway-unavailable early return of
lines 282-285. -/
def generateQuestions (clientOk : Bool) (response : String) : List JVal :=
  if clientOk then generateFromText response else []

/-- Spec-side description of the Generator loop (spec section 4.3), for
the refinement statement of claim C7: keep exactly the records passing
the required-field check, in order, each normalized by the in-place
coercions. -/
def specSurvivors (qs : List JVal) : List JVal :=
  qs.filterMap (fun q =>
    match reqCheck q with
    | .ok true =>
      (match coerceElem q with
       | .ok q2 => some q2
       | .error _ => none)
    | _ => none)

/-- Field lookup on a generated record. -/
def qField (q : JVal) (k : String) : Option JVal :=
  match q with
  | .jobj fs => jGet fs k
  | _ => none

/-- Is an Except an error? -/
def isErr {ε α : Type} : Except ε α → Bool
  | .error _ => true
  | .ok _ => false

/-! ## Auxiliary definitions for the verification -/

/-- A character list without the asterisk that heads both report-marker
patterns; regions of the report made of such characters cannot start a
marker match. -/
def noStar (l : List Char) : Prop := ∀ c ∈ l, c ≠ '*'

/-! ## Basic lemmas about the primitives -/

theorem strData_append (a b : String) : (a ++ b).data = a.data ++ b.data := rfl

theorem dropLit_self (p l : List Char) : dropLit p (p ++ l) = some l := by
  induction p with
  | nil => rfl
  | cons c ps ih => simp [dropLit, ih]

theorem spanP_concat (p : Char → Bool) (xs : List Char) (y : Char) (l : List Char)
    (hxs : ∀ c ∈ xs, p c = true) (hy : p y = false) :
    spanP p (xs ++ y :: l) = (xs, y :: l) := by
  induction xs with
  | nil => simp [spanP, hy]
  | cons x xs ih =>
    have hx : p x = true := hxs x (by simp)
    have ih2 := ih (fun c hc => hxs c (by simp [hc]))
    simp [spanP, hx, ih2]

theorem digitChar_isDigit (n : Nat) : isDigitC (digitChar n) = true := by
  unfold digitChar
  by_cases h : n < 10
  · interval_cases n <;> rfl
  · rw [List.getD_eq_default]
    · rfl
    · simpa using Nat.le_of_not_lt h

theorem digitVal_digitChar {n : Nat} (h : n < 10) : digitVal (digitChar n) = n := by
  interval_cases n <;> rfl

theorem natDigitsAux_eq (f : Nat) : ∀ g n, n < f → n < g → natDigitsAux f n = natDigitsAux g n := by
  induction f with
  | zero => intro g n h; exact absurd h (Nat.not_lt_zero n)
  | succ f ih =>
    intro g n hf hg
    cases g with
    | zero => exact absurd hg (Nat.not_lt_zero n)
    | succ g =>
      by_cases h : n < 10
      · simp [natDigitsAux, h]
      · have hd : n / 10 < n := Nat.div_lt_self (by omega) (by omega)
        simp only [natDigitsAux, if_neg h]
        have := ih g (n / 10) (by omega) (by omega)
        rw [this]

theorem natDigits_lt10 {n : Nat} (h : n < 10) : natDigits n = [digitChar n] := by
  simp [natDigits, natDigitsAux, h]

theorem natDigits_ge10 {n : Nat} (h : ¬ n < 10) :
    natDigits n = natDigits (n / 10) ++ [digitChar (n % 10)] := by
  have hd : n / 10 < n := Nat.div_lt_self (by omega) (by omega)
  show natDigitsAux (n + 1) n = _
  simp only [natDigitsAux, if_neg h]
  rw [natDigitsAux_eq n (n / 10 + 1) (n / 10) (by omega) (by omega)]
  rfl

theorem digitsVal_append_single (xs : List Char) (c : Char) :
    digitsVal (xs ++ [c]) = 10 * digitsVal xs + digitVal c := by
  simp [digitsVal, List.foldl_append]
  omega

theorem digitsVal_natDigits (n : Nat) : digitsVal (natDigits n) = n := by
  induction n using Nat.strong_induction_on with
  | _ n ih =>
    by_cases h : n < 10
    · rw [natDigits_lt10 h]
      simp [digitsVal, digitVal_digitChar h]
    · have hd : n / 10 < n := Nat.div_lt_self (by omega) (by omega)
      rw [natDigits_ge10 h, digitsVal_append_single, ih (n / 10) hd,
        digitVal_digitChar (Nat.mod_lt n (by omega))]
      omega

theorem natDigits_ne_nil (n : Nat) : natDigits n ≠ [] := by
  by_cases h : n < 10
  · rw [natDigits_lt10 h]; simp
  · rw [natDigits_ge10 h]; simp

theorem natDigits_isEmpty (n : Nat) : (natDigits n).isEmpty = false := by
  have := natDigits_ne_nil n
  cases h : natDigits n with
  | nil => exact absurd h this
  | cons a l => simp

theorem natDigits_mem_isDigit (n : Nat) : ∀ c ∈ natDigits n, isDigitC c = true := by
  induction n using Nat.strong_induction_on with
  | _ n ih =>
    intro c hc
    by_cases h : n < 10
    · rw [natDigits_lt10 h] at hc
      simp at hc
      rw [hc]; exact digitChar_isDigit n
    · have hd : n / 10 < n := Nat.div_lt_self (by omega) (by omega)
      rw [natDigits_ge10 h] at hc
      rcases List.mem_append.1 hc with h1 | h1
      · exact ih (n / 10) hd c h1
      · simp at h1
        rw [h1]; exact digitChar_isDigit (n % 10)

theorem isDigitC_ne_star {c : Char} (h : isDigitC c = true) : c ≠ '*' := by
  intro he
  rw [he] at h
  exact absurd h (by decide)

theorem natDigits_noStar (n : Nat) : noStar (natDigits n) :=
  fun c hc => isDigitC_ne_star (natDigits_mem_isDigit n c hc)

theorem fracDigits_mem_isDigit (d : Nat) :
    ∀ f r, ∀ c ∈ fracDigits d f r, isDigitC c = true := by
  intro f
  induction f with
  | zero => intro r c hc; simp [fracDigits] at hc
  | succ f ih =>
    intro r c hc
    by_cases h : r = 0
    · simp [fracDigits, h] at hc
    · simp only [fracDigits, if_neg h] at hc
      rcases List.mem_cons.1 hc with h1 | h1
      · rw [h1]; exact digitChar_isDigit _
      · exact ih _ c h1

theorem intStr_nonneg_data {z : Int} (h : 0 ≤ z) : (intStr z).data = natDigits z.toNat := by
  unfold intStr
  rw [if_neg (by omega)]

theorem intStr_noStar (z : Int) : noStar (intStr z).data := by
  intro c hc
  unfold intStr at hc
  by_cases h : z < 0
  · rw [if_pos h] at hc
    rcases List.mem_append.1 hc with h1 | h1
    · simp at h1
      rw [h1]; decide
    · exact natDigits_noStar _ c h1
  · rw [if_neg h] at hc
    exact natDigits_noStar _ c hc

theorem fmtQ_noStar (q : ℚ) : noStar (fmtQ q).data := by
  intro c hc
  unfold fmtQ at hc
  by_cases h : q.den = 1
  · rw [if_pos h, strData_append] at hc
    rcases List.mem_append.1 hc with h1 | h1
    · exact intStr_noStar _ c h1
    · simp at h1
      rcases h1 with h1 | h1 <;> (rw [h1]; decide)
  · rw [if_neg h, strData_append, strData_append, strData_append] at hc
    rcases List.mem_append.1 hc with h1 | h1
    · rcases List.mem_append.1 h1 with h2 | h2
      · rcases List.mem_append.1 h2 with h3 | h3
        · by_cases hn : q.num < 0
          · rw [if_pos hn] at h3
            simp at h3
            rw [h3]; decide
          · rw [if_neg hn] at h3
            simp at h3
        · exact natDigits_noStar _ c h3
      · simp at h2
        rw [h2]; decide
    · exact isDigitC_ne_star (fracDigits_mem_isDigit _ _ _ c h1)

/-! ## Leftmost-match analysis of the report scanners -/

theorem timeMarker_cons : timeMarkerL = '*' :: "*Estimated Time:** ".data := rfl

theorem levelMarker_cons : levelMarkerL = '*' :: "*Appropriate Student Level:** ".data := rfl

theorem matchTimeAt_ne_star (c : Char) (l : List Char) (hc : c ≠ '*') :
    matchTimeAt (c :: l) = none := by
  have hd : dropLit timeMarkerL (c :: l) = none := by
    rw [timeMarker_cons]
    simp [dropLit, Ne.symm hc]
  simp [matchTimeAt, hd]

theorem matchLevelAt_ne_star (c : Char) (l : List Char) (hc : c ≠ '*') :
    matchLevelAt (c :: l) = none := by
  have hd : dropLit levelMarkerL (c :: l) = none := by
    rw [levelMarker_cons]
    simp [dropLit, Ne.symm hc]
  simp [matchLevelAt, hd]

theorem scanA_append_noStar {α : Type} (m : List Char → Option α)
    (hm : ∀ c l, c ≠ '*' → m (c :: l) = none) :
    ∀ x l, noStar x → scanA m (x ++ l) = scanA m l := by
  intro x
  induction x with
  | nil => intro l _; rfl
  | cons c cs ih =>
    intro l hx
    have hc : c ≠ '*' := hx c (by simp)
    have ht : scanA m (c :: (cs ++ l)) = scanA m (cs ++ l) := by
      simp [scanA, hm c (cs ++ l) hc]
    calc scanA m ((c :: cs) ++ l) = scanA m (cs ++ l) := ht
    _ = scanA m l := ih l (fun d hd => hx d (by simp [hd]))

theorem scanTime_skip1 (l : List Char) :
    scanA matchTimeAt ("## Question Analysis\n\n**Difficulty Rating:** ".data ++ l) =
      scanA matchTimeAt l := rfl

theorem scanLevel_skip1 (l : List Char) :
    scanA matchLevelAt ("## Question Analysis\n\n**Difficulty Rating:** ".data ++ l) =
      scanA matchLevelAt l := rfl

theorem scanLevel_skipTimeMarker (l : List Char) :
    scanA matchLevelAt (timeMarkerL ++ l) = scanA matchLevelAt l := rfl

theorem scanA_cons_some {α : Type} (m : List Char → Option α) (c : Char) (cs : List Char)
    (v : α) (h : m (c :: cs) = some v) : scanA m (c :: cs) = some v := by
  simp [scanA, h]

theorem scanTime_found (n : Nat) (rest : List Char) :
    scanA matchTimeAt (timeMarkerL ++ (natDigits n ++ (minutesLitL ++ rest))) = some n := by
  have hs : spanP isDigitC (natDigits n ++ (minutesLitL ++ rest)) =
      (natDigits n, minutesLitL ++ rest) := by
    rw [show minutesLitL ++ rest = ' ' :: ("minutes".data ++ rest) from rfl]
    exact spanP_concat _ _ _ _ (natDigits_mem_isDigit n) (by decide)
  have hmatch : matchTimeAt (timeMarkerL ++ (natDigits n ++ (minutesLitL ++ rest))) = some n := by
    simp [matchTimeAt, dropLit_self, hs, natDigits_isEmpty, digitsVal_natDigits]
  have hcons : timeMarkerL ++ (natDigits n ++ (minutesLitL ++ rest)) =
      '*' :: ("*Estimated Time:** ".data ++ (natDigits n ++ (minutesLitL ++ rest))) := rfl
  rw [hcons] at hmatch ⊢
  exact scanA_cons_some _ _ _ _ hmatch

theorem scanLevel_found (lvl : String)
    (hl : lvl = "Beginner" ∨ lvl = "Intermediate" ∨ lvl = "Advanced") (rest : List Char) :
    scanA matchLevelAt (levelMarkerL ++ (lvl.data ++ ('\n' :: rest))) = some lvl := by
  rcases hl with h | h | h <;> subst h <;> rfl

/-- The report text decomposed into its literal segments (definitional). -/
theorem mkReport_data (d : ℚ) (t : Int) (lvl sugg : String) :
    (mkReport d t lvl sugg).data =
      "## Question Analysis\n\n**Difficulty Rating:** ".data ++ ((fmtQ d).data ++
        ("/5.0\n\n**Estimated Time:** ".data ++ ((intStr t).data ++
          (" minutes\n\n**Appropriate Student Level:** ".data ++ (lvl.data ++
            ("\n\n### Improvement Suggestions:\n".data ++ (sugg.data ++ "\n".data))))))) := rfl

/-- Scanning the report template re-yields the estimated time, whatever
the difficulty, level and suggestion text are. -/
theorem scanTime_report (d : ℚ) (t : Int) (lvl sugg : String) (ht : 0 ≤ t) :
    scanTime (mkReport d t lvl sugg) = some t.toNat := by
  unfold scanTime
  rw [mkReport_data]
  rw [scanTime_skip1]
  rw [scanA_append_noStar matchTimeAt matchTimeAt_ne_star _ _ (fmtQ_noStar d)]
  rw [show ("/5.0\n\n**Estimated Time:** ".data : List Char) = "/5.0\n\n".data ++ timeMarkerL
    from rfl]
  rw [List.append_assoc]
  rw [scanA_append_noStar matchTimeAt matchTimeAt_ne_star _ _ (by unfold noStar; decide)]
  rw [show (" minutes\n\n**Appropriate Student Level:** ".data : List Char) =
    minutesLitL ++ "\n\n**Appropriate Student Level:** ".data from rfl]
  rw [intStr_nonneg_data ht]
  rw [List.append_assoc]
  rw [scanTime_found]

/-- Scanning the report template re-yields the student level when the
level is one of the three normalized labels. -/
theorem scanLevel_report (d : ℚ) (t : Int) (lvl sugg : String) (ht : 0 ≤ t)
    (hl : lvl = "Beginner" ∨ lvl = "Intermediate" ∨ lvl = "Advanced") :
    scanLevel (mkReport d t lvl sugg) = some lvl := by
  unfold scanLevel
  rw [mkReport_data]
  rw [scanLevel_skip1]
  rw [scanA_append_noStar matchLevelAt matchLevelAt_ne_star _ _ (fmtQ_noStar d)]
  rw [show ("/5.0\n\n**Estimated Time:** ".data : List Char) = "/5.0\n\n".data ++ timeMarkerL
    from rfl]
  rw [List.append_assoc]
  rw [scanA_append_noStar matchLevelAt matchLevelAt_ne_star _ _ (by unfold noStar; decide)]
  rw [scanLevel_skipTimeMarker]
  rw [intStr_nonneg_data ht]
  rw [scanA_append_noStar matchLevelAt matchLevelAt_ne_star _ _ (natDigits_noStar _)]
  rw [show (" minutes\n\n**Appropriate Student Level:** ".data : List Char) =
    " minutes\n\n".data ++ levelMarkerL from rfl]
  rw [List.append_assoc]
  rw [scanA_append_noStar matchLevelAt matchLevelAt_ne_star _ _ (by unfold noStar; decide)]
  rw [show ("\n\n### Improvement Suggestions:\n".data : List Char) =
    '\n' :: "\n### Improvement Suggestions:\n".data from rfl]
  rw [List.cons_append]
  exact scanLevel_found lvl hl _

/-! ## Normalization lemmas (Evaluator) -/

theorem clampQ_bounds (x : ℚ) : 1 ≤ max 1 (min 5 x) ∧ max 1 (min 5 x) ≤ 5 :=
  ⟨le_max_left _ _, max_le (by norm_num) (min_le_left _ _)⟩

theorem clampInt_bounds (x : Int) : 1 ≤ max 1 (min 60 x) ∧ max 1 (min 60 x) ≤ 60 :=
  ⟨le_max_left _ _, max_le (by norm_num) (min_le_left _ _)⟩

theorem normDifficulty_bounds {o : Option JVal} {d : ℚ}
    (h : normDifficulty o = .ok (some d)) : 1 ≤ d ∧ d ≤ 5 := by
  unfold normDifficulty at h
  split at h
  · simp at h
  · simp at h
  · rename_i v hv hv2
    split at h
    · simp at h
    · simp at h
      rw [← h]
      exact clampQ_bounds _

theorem normTime_bounds {o : Option JVal} {t : Int}
    (h : normTime o = .ok t) : 1 ≤ t ∧ t ≤ 60 := by
  unfold normTime at h
  split at h
  · simp at h; omega
  · simp at h; omega
  · split at h
    · simp at h
    · simp at h
      rw [← h]
      exact clampInt_bounds _

theorem normLevel_labels {o : Option JVal} {lvl : String}
    (h : normLevel o = .ok lvl) :
    lvl = "Beginner" ∨ lvl = "Intermediate" ∨ lvl = "Advanced" := by
  unfold normLevel at h
  split at h
  · simp at h
    exact Or.inr (Or.inl h.symm)
  · simp at h
    exact Or.inr (Or.inl h.symm)
  · simp at h
    split at h
    · exact Or.inl h.symm
    · split at h
      · exact Or.inr (Or.inr h.symm)
      · exact Or.inr (Or.inl h.symm)
  · simp at h

/-! ## Dictionary lemmas (Generator) -/

theorem jGet_dictInsert_self (fs : List (String × JVal)) (k : String) (v : JVal) :
    jGet (dictInsert fs k v) k = some v := by
  induction fs with
  | nil => simp [dictInsert, jGet, List.find?]
  | cons kv rest ih =>
    obtain ⟨a, b⟩ := kv
    cases hb : (a == k) with
    | true => simp [dictInsert, hb, jGet, List.find?]
    | false =>
      simp only [dictInsert, hb, Bool.false_eq_true, if_false]
      simp only [jGet, List.find?, hb] at ih ⊢
      exact ih

theorem jGet_dictInsert_ne (fs : List (String × JVal)) {k' k : String} (v : JVal)
    (hne : k' ≠ k) : jGet (dictInsert fs k' v) k = jGet fs k := by
  have hkk : (k' == k) = false := by simp [hne]
  induction fs with
  | nil => simp [dictInsert, jGet, List.find?, hkk]
  | cons kv rest ih =>
    obtain ⟨a, b⟩ := kv
    cases hb : (a == k') with
    | true =>
      have ha : a = k' := by simpa using hb
      have hak : (a == k) = false := by simp [ha, hne]
      simp [dictInsert, hb, jGet, List.find?, hak]
    | false =>
      cases hak : (a == k) with
      | true => simp [dictInsert, hb, jGet, List.find?, hak]
      | false =>
        simp only [dictInsert, hb, Bool.false_eq_true, if_false]
        simp only [jGet, List.find?, hak] at ih ⊢
        exact ih

theorem jGet_isSome_of_any {fs : List (String × JVal)} {k : String}
    (h : fs.any (fun kv => kv.1 == k) = true) : (jGet fs k).isSome = true := by
  induction fs with
  | nil => simp at h
  | cons kv rest ih =>
    cases hb : (kv.1 == k) with
    | true => simp [jGet, List.find?, hb]
    | false =>
      simp only [List.any_cons, hb, Bool.false_or] at h
      simp only [jGet, List.find?, hb]
      simpa [jGet] using ih h

theorem coerceTime_fields {fs1 fs2 : List (String × JVal)} (h : coerceTime fs1 = some fs2) :
    (∃ t : Int, jGet fs2 "estimated_time" = some (.jnum (t : ℚ))) ∧
    (∀ k, k ≠ "estimated_time" → jGet fs2 k = jGet fs1 k) := by
  unfold coerceTime at h
  split at h
  · rcases Option.map_eq_some'.1 h with ⟨t, _, rfl⟩
    refine ⟨⟨t, jGet_dictInsert_self _ _ _⟩, ?_⟩
    intro k hk
    exact jGet_dictInsert_ne _ _ (Ne.symm hk)
  · simp only [Option.some.injEq] at h
    subst h
    refine ⟨⟨5, ?_⟩, ?_⟩
    · rw [jGet_dictInsert_self]
      norm_num
    · intro k hk
      exact jGet_dictInsert_ne _ _ (Ne.symm hk)

theorem addLevel_fields (fs2 : List (String × JVal)) :
    (jGet (addLevel fs2) "student_level").isSome = true ∧
    (∀ k, k ≠ "student_level" → jGet (addLevel fs2) k = jGet fs2 k) := by
  unfold addLevel
  split
  · refine ⟨jGet_isSome_of_any ?_, fun k _ => rfl⟩
    assumption
  · refine ⟨?_, fun k hk => jGet_dictInsert_ne _ _ (Ne.symm hk)⟩
    rw [jGet_dictInsert_self]
    rfl

theorem coerceElem_fields {r r' : JVal} (h : coerceElem r = .ok r') :
    (∃ x : ℚ, qField r' "difficulty" = some (.jnum x) ∧ 1 ≤ x ∧ x ≤ 5) ∧
    (∃ t : Int, qField r' "estimated_time" = some (.jnum (t : ℚ))) ∧
    (qField r' "student_level").isSome = true := by
  cases r with
  | jnull => simp [coerceElem] at h
  | jbool b => simp [coerceElem] at h
  | jnum n => simp [coerceElem] at h
  | jstr s => simp [coerceElem] at h
  | jarr l => simp [coerceElem] at h
  | jobj fs =>
    unfold coerceElem at h
    split at h
    · rename_i fsx heq
      injection heq with hfs
      subst hfs
      split at h
      · exact Except.noConfusion h
      split at h
      · exact Except.noConfusion h
      split at h
      · exact Except.noConfusion h
      rename_i x hx hsc fs2 hct
      simp only [Except.ok.injEq] at h
      subst h
      obtain ⟨⟨t, htt⟩, hother⟩ := coerceTime_fields hct
      obtain ⟨hlev, hother2⟩ := addLevel_fields fs2
      refine ⟨⟨max 1 (min 5 x), ?_, clampQ_bounds x⟩, ⟨t, ?_⟩, ?_⟩
      · show jGet (addLevel fs2) "difficulty" = _
        rw [hother2 "difficulty" (by decide), hother "difficulty" (by decide),
          jGet_dictInsert_self]
      · show jGet (addLevel fs2) "estimated_time" = _
        rw [hother2 "estimated_time" (by decide)]
        exact htt
      · exact hlev
    · rename_i hcontra
      exact absurd rfl (hcontra fs)

/-! ## Validation-loop lemmas (Generator) -/

theorem processAll_ok_mem {qs out : List JVal} (h : processAll qs = .ok out) :
    ∀ q' ∈ out, ∃ q ∈ qs, reqCheck q = .ok true ∧ coerceElem q = .ok q' := by
  induction qs generalizing out with
  | nil =>
    simp [processAll] at h
    subst h
    intro q' h'
    simp at h'
  | cons a qs ih =>
    intro q' hq'
    rcases hr : reqCheck a with e | b
    · simp only [processAll, hr] at h
      exact Except.noConfusion h
    · cases b with
      | false =>
        simp only [processAll, hr] at h
        obtain ⟨q₀, hmem, hrc, hce⟩ := ih h q' hq'
        exact ⟨q₀, by simp [hmem], hrc, hce⟩
      | true =>
        simp only [processAll, hr] at h
        rcases hc : coerceElem a with e | a2 <;> rw [hc] at h
        · exact Except.noConfusion h
        rcases hp : processAll qs with e | out' <;> rw [hp] at h
        · exact Except.noConfusion h
        simp only [Except.ok.injEq] at h
        subst h
        rcases List.mem_cons.1 hq' with rfl | hmem'
        · exact ⟨a, by simp, hr, hc⟩
        · obtain ⟨q₀, hmem, hrc, hce⟩ := ih hp q' hmem'
          exact ⟨q₀, by simp [hmem], hrc, hce⟩

theorem processAll_ok_spec {qs out : List JVal} (h : processAll qs = .ok out) :
    out = specSurvivors qs := by
  induction qs generalizing out with
  | nil =>
    simp [processAll] at h
    subst h
    simp [specSurvivors]
  | cons a qs ih =>
    rcases hr : reqCheck a with e | b
    · simp only [processAll, hr] at h
      exact Except.noConfusion h
    · cases b with
      | false =>
        simp only [processAll, hr] at h
        rw [ih h]
        simp [specSurvivors, List.filterMap_cons, hr]
      | true =>
        simp only [processAll, hr] at h
        rcases hc : coerceElem a with e | a2 <;> rw [hc] at h
        · exact Except.noConfusion h
        rcases hp : processAll qs with e | out' <;> rw [hp] at h
        · exact Except.noConfusion h
        simp only [Except.ok.injEq] at h
        rw [← h, ih hp]
        simp [specSurvivors, List.filterMap_cons, hr, hc]

theorem processAll_err_of_mem {qs : List JVal} {q : JVal} (hmem : q ∈ qs)
    (hrc : reqCheck q = .ok true) (hce : isErr (coerceElem q) = true) :
    isErr (processAll qs) = true := by
  induction qs with
  | nil => simp at hmem
  | cons a qs ih =>
    rcases List.mem_cons.1 hmem with rfl | hmem'
    · rcases hc : coerceElem q with e | q2
      · simp [processAll, hrc, hc, isErr]
      · rw [hc] at hce
        simp [isErr] at hce
    · rcases hr : reqCheck a with e | b
      · simp [processAll, hr, isErr]
      · cases b with
        | false =>
          simp only [processAll, hr]
          exact ih hmem'
        | true =>
          rcases hc : coerceElem a with e | a2
          · simp [processAll, hr, hc, isErr]
          · simp only [processAll, hr, hc]
            have hq := ih hmem'
            rcases hp : processAll qs with e | out'
            · simp [hp, isErr]
            · rw [hp] at hq
              simp [isErr] at hq

theorem generateFromText_mem {s : String} {q' : JVal} (h : q' ∈ generateFromText s) :
    ∃ q, reqCheck q = .ok true ∧ coerceElem q = .ok q' := by
  unfold generateFromText at h
  split at h
  · simp at h
  · split at h
    · rename_i qs
      split at h
      · rename_i out hp
        obtain ⟨q, _, hrc, hce⟩ := processAll_ok_mem hp q' h
        exact ⟨q, hrc, hce⟩
      · simp at h
    · simp at h

/-! ## Bridge lemmas for analyzeResponse -/

theorem analyzeResponse_primary_ok {s : String} {fs : List (String × JVal)}
    {r : Option ℚ × String} (hp : jsonParse (cleanText s) = some (.jobj fs))
    (h2 : primary fs = .ok r) : analyzeResponse s = r := by
  unfold analyzeResponse
  rw [hp]
  show (match primaryDispatch (.jobj fs) with
    | .ok r => r
    | .error e => (none, "Error calling Groq API: " ++ e)) = r
  show (match primary fs with
    | .ok r => r
    | .error e => (none, "Error calling Groq API: " ++ e)) = r
  rw [h2]

theorem analyzeResponse_primary_err {s : String} {fs : List (String × JVal)}
    {e : String} (hp : jsonParse (cleanText s) = some (.jobj fs))
    (h2 : primary fs = .error e) :
    analyzeResponse s = (none, "Error calling Groq API: " ++ e) := by
  unfold analyzeResponse
  rw [hp]
  show (match primary fs with
    | .ok r => r
    | .error e => (none, "Error calling Groq API: " ++ e)) = _
  rw [h2]

theorem analyzeResponse_eq_fallback {s : String}
    (hp : jsonParse (cleanText s) = none) :
    analyzeResponse s = fallback (cleanText s) := by
  unfold analyzeResponse
  rw [hp]

theorem fallback_fst (c : String) : ∃ d : ℚ, (fallback c).1 = some d := by
  unfold fallback
  split
  · exact ⟨3, rfl⟩
  · split
    · split
      · exact ⟨3, rfl⟩
      · split
        · exact ⟨3, rfl⟩
        · exact ⟨_, rfl⟩
    · exact ⟨3, rfl⟩

/-! ## The claims -/

/-- C1, counterexample: on the regex-extraction fallback path the
Evaluator returns the coerced difficulty without clamping, so the response
x\x7b"difficulty_rating": 7\x7d (direct parse fails, brace span parses)
yields difficulty 7, outside [1.0, 5.0]. -/
theorem C1_cex :
    (analyzeResponse "x\x7b\"difficulty_rating\": 7\x7d").1 = some 7 ∧ ¬ ((7 : ℚ) ≤ 5) := by
  exact ⟨rfl, by decide⟩

/-- C1, amended: every difficulty the Evaluator returns through the
direct-parse path lies in [1.0, 5.0], and every element of the Generator
output carries a difficulty in [1.0, 5.0]; the Evaluator regex-extraction
fallback is exempt (see the counterexample). -/
theorem C1_amended :
    (∀ (s : String) (d : ℚ) (rep : String),
        (jsonParse (cleanText s)).isSome = true →
        analyzeResponse s = (some d, rep) → 1 ≤ d ∧ d ≤ 5) ∧
    (∀ (s : String) (q : JVal), q ∈ generateFromText s →
        ∃ x : ℚ, qField q "difficulty" = some (.jnum x) ∧ 1 ≤ x ∧ x ≤ 5) := by
  constructor
  · intro s d rep hsome h
    rcases hps : jsonParse (cleanText s) with _ | v
    · rw [hps] at hsome
      simp at hsome
    · rcases v with _ | b | n | st | l | fs
      · have hx : (analyzeResponse s).1 = none := by
          unfold analyzeResponse
          rw [hps]
          rfl
        rw [h] at hx
        simp at hx
      · have hx : (analyzeResponse s).1 = none := by
          unfold analyzeResponse
          rw [hps]
          rfl
        rw [h] at hx
        simp at hx
      · have hx : (analyzeResponse s).1 = none := by
          unfold analyzeResponse
          rw [hps]
          rfl
        rw [h] at hx
        simp at hx
      · have hx : (analyzeResponse s).1 = none := by
          unfold analyzeResponse
          rw [hps]
          rfl
        rw [h] at hx
        simp at hx
      · have hx : (analyzeResponse s).1 = none := by
          unfold analyzeResponse
          rw [hps]
          rfl
        rw [h] at hx
        simp at hx
      · rcases hpr : primary fs with e | r
        · rw [analyzeResponse_primary_err hps hpr] at h
          simp at h
        · rw [analyzeResponse_primary_ok hps hpr] at h
          subst h
          unfold primary at hpr
          split at hpr
          · exact Except.noConfusion hpr
          · simp at hpr
          · rename_i d0 hd0
            split at hpr
            · exact Except.noConfusion hpr
            split at hpr
            · exact Except.noConfusion hpr
            simp only [Except.ok.injEq, Prod.mk.injEq, Option.some.injEq] at hpr
            obtain ⟨hdd, -⟩ := hpr
            rw [← hdd]
            exact normDifficulty_bounds hd0
  · intro s q hq
    obtain ⟨q₀, _, hce⟩ := generateFromText_mem hq
    exact (coerceElem_fields hce).1

/-- C1, witness for the amended theorem at a concrete in-range response. -/
theorem C1_wit : 1 ≤ (2 : ℚ) ∧ (2 : ℚ) ≤ 5 :=
  C1_amended.1 "\x7b\"difficulty_rating\": 2\x7d" 2
    (mkReport 2 5 "Intermediate" placeholderSugg) rfl rfl

/-- C2, counterexample: with a working gateway, a response that parses as
JSON but lacks difficulty_rating makes analyze_question return a null
difficulty with an error text, contradicting the claim that a null
difficulty only arises when the gateway failed. -/
theorem C2_cex :
    analyzeQuestion true "\x7b\"estimated_time\": 4\x7d" =
      (none, "Error: No difficulty rating provided in analysis") := rfl

/-- C2, amended: whenever the direct JSON parse of the cleaned response
fails, analyze_question does return a non-null difficulty (the fallback
tiers always produce one); a parse-success path may still return null when
difficulty_rating is absent or a coercion raises. -/
theorem C2_amended :
    ∀ s : String, jsonParse (cleanText s) = none →
      ∃ d : ℚ, (analyzeQuestion true s).1 = some d := by
  intro s hp
  show ∃ d : ℚ, (analyzeResponse s).1 = some d
  rw [analyzeResponse_eq_fallback hp]
  exact fallback_fst _

/-- C2, witness for the amended theorem on an unparseable response. -/
theorem C2_wit : ∃ d : ℚ, (analyzeQuestion true "not json").1 = some d :=
  C2_amended "not json" rfl

/-- C3, counterexample: the Generator does not normalize a present
student_level; a record carrying "expert" survives with "expert", which is
none of the three labels. -/
theorem C3_cex :
    (generateFromText "[\x7b\"question_content\": \"q\", \"question_type\": \"Essay\", \"difficulty\": 2, \"correct_answer\": \"a\", \"student_level\": \"expert\"\x7d]").map
        (fun q => qField q "student_level") = [some (.jstr "expert")] ∧
    ¬ ("expert" = "Beginner" ∨ "expert" = "Intermediate" ∨ "expert" = "Advanced") := by
  exact ⟨rfl, by decide⟩

/-- C3, amended: the Evaluator direct-parse path classifies student_level
into exactly the three labels by case-folded substring match (beginner
before advanced, default Intermediate for absent or null values); the
Generator only guarantees the field is present, passing raw values
through unnormalized. -/
theorem C3_amended :
    (∀ (o : Option JVal) (lvl : String), normLevel o = .ok lvl →
        lvl = "Beginner" ∨ lvl = "Intermediate" ∨ lvl = "Advanced") ∧
    (∀ s : String, hasSubStr (lowerStr s) "beginner" = true →
        normLevel (some (.jstr s)) = .ok "Beginner") ∧
    (∀ s : String, hasSubStr (lowerStr s) "beginner" = false →
        hasSubStr (lowerStr s) "advanced" = true →
        normLevel (some (.jstr s)) = .ok "Advanced") ∧
    (∀ s : String, hasSubStr (lowerStr s) "beginner" = false →
        hasSubStr (lowerStr s) "advanced" = false →
        normLevel (some (.jstr s)) = .ok "Intermediate") ∧
    normLevel none = .ok "Intermediate" ∧
    (∀ (s : String) (q : JVal), q ∈ generateFromText s →
        (qField q "student_level").isSome = true) := by
  refine ⟨fun o lvl h => normLevel_labels h, ?_, ?_, ?_, rfl, ?_⟩
  · intro s hb
    simp [normLevel, hb]
  · intro s hb ha
    simp [normLevel, hb, ha]
  · intro s hb ha
    simp [normLevel, hb, ha]
  · intro s q hq
    obtain ⟨q₀, _, hce⟩ := generateFromText_mem hq
    exact (coerceElem_fields hce).2.2

/-- C3, witness: the substring rule at the raw value BEGINNER-ish. -/
theorem C3_wit : normLevel (some (.jstr "BEGINNER-ish")) = .ok "Beginner" :=
  C3_amended.2.1 "BEGINNER-ish" rfl

/-- C4, counterexample: on the regex-extraction fallback path the
estimated time is coerced but not clamped, so a 999-minute value reaches
the report. -/
theorem C4_cex :
    scanTime (analyzeResponse "x\x7b\"difficulty_rating\": 2, \"estimated_time\": 999\x7d").2 =
      some 999 ∧ ¬ (999 ≤ 60) := by
  exact ⟨rfl, by decide⟩

/-- C4, amended: the Evaluator direct-parse path clamps estimated_time
into [1, 60] and defaults absent or null values to 5; the Generator only
coerces to an integer (defaulting to 5 when absent) with no clamps; the
regex-extraction fallback is exempt (see the counterexample). -/
theorem C4_amended :
    (∀ (o : Option JVal) (t : Int), normTime o = .ok t → 1 ≤ t ∧ t ≤ 60) ∧
    normTime none = .ok 5 ∧
    (∀ (s : String) (q : JVal), q ∈ generateFromText s →
        ∃ t : Int, qField q "estimated_time" = some (.jnum (t : ℚ))) := by
  refine ⟨fun o t h => normTime_bounds h, rfl, ?_⟩
  intro s q hq
  obtain ⟨q₀, _, hce⟩ := generateFromText_mem hq
  exact (coerceElem_fields hce).2.1

/-- C4, witness: the clamp at the out-of-range value 999. -/
theorem C4_wit : 1 ≤ (60 : Int) ∧ (60 : Int) ≤ 60 :=
  C4_amended.1 (some (.jnum 999)) 60 rfl

/-- C5: the Markdown-fenced response with difficulty 7, time 999, level
novice and empty suggestions is normalized to difficulty 5.0, time 60,
level Intermediate and the fixed placeholder text, in the exact report
format. -/
theorem C5_thm :
    analyzeResponse "```json \x7b\"difficulty_rating\": 7, \"estimated_time\": 999, \"student_level\": \"novice\", \"improvement_suggestions\": \"\"\x7d ```" =
      (some 5, "## Question Analysis\n\n**Difficulty Rating:** 5.0/5.0\n\n**Estimated Time:** 60 minutes\n\n**Appropriate Student Level:** Intermediate\n\n### Improvement Suggestions:\nNo specific improvement suggestions provided.\n") := rfl

/-- C6: on the direct-parse path, scanning the emitted report with the
documented section-marker patterns re-yields exactly the normalized
estimated_time and student_level values. -/
theorem C6_thm :
    ∀ (s : String) (fs : List (String × JVal)) (d : ℚ) (t : Int) (lvl : String),
      jsonParse (cleanText s) = some (.jobj fs) →
      normDifficulty (jGet fs "difficulty_rating") = .ok (some d) →
      normTime (jGet fs "estimated_time") = .ok t →
      normLevel (jGet fs "student_level") = .ok lvl →
      scanTime (analyzeResponse s).2 = some t.toNat ∧
      scanLevel (analyzeResponse s).2 = some lvl := by
  intro s fs d t lvl hp hd ht hl
  have hpr : primary fs =
      .ok (some d, mkReport d t lvl (normSugg (jGet fs "improvement_suggestions"))) := by
    unfold primary
    rw [hd, ht, hl]
  have hre := analyzeResponse_primary_ok hp hpr
  have htb := normTime_bounds ht
  constructor
  · rw [hre]
    exact scanTime_report d t lvl _ (by omega)
  · rw [hre]
    exact scanLevel_report d t lvl _ (by omega) (normLevel_labels hl)

/-- C6, witness: the round trip at a concrete response with time 7 and
level advanced. -/
theorem C6_wit :
    scanTime (analyzeResponse "\x7b\"difficulty_rating\": 2, \"estimated_time\": 7, \"student_level\": \"advanced\", \"improvement_suggestions\": \"x\"\x7d").2 = some 7 ∧
    scanLevel (analyzeResponse "\x7b\"difficulty_rating\": 2, \"estimated_time\": 7, \"student_level\": \"advanced\", \"improvement_suggestions\": \"x\"\x7d").2 = some "Advanced" :=
  C6_thm "\x7b\"difficulty_rating\": 2, \"estimated_time\": 7, \"student_level\": \"advanced\", \"improvement_suggestions\": \"x\"\x7d"
    [("difficulty_rating", .jnum 2), ("estimated_time", .jnum 7),
     ("student_level", .jstr "advanced"), ("improvement_suggestions", .jstr "x")]
    2 7 "Advanced" rfl rfl rfl rfl

/-- C7, counterexample: a batch whose single record has all four required
fields but a non-coercible difficulty is discarded wholesale, so an
element can be discarded without any required field being absent,
refuting the stated equivalence. -/
theorem C7_cex :
    generateFromText "[\x7b\"question_content\": \"a\", \"question_type\": \"Essay\", \"difficulty\": \"hard\", \"correct_answer\": \"x\"\x7d]" = [] ∧
    reqCheck (.jobj [("question_content", .jstr "a"), ("question_type", .jstr "Essay"),
      ("difficulty", .jstr "hard"), ("correct_answer", .jstr "x")]) = .ok true := ⟨rfl, rfl⟩

/-- C7, amended: provided the validation loop completes without an
exception (every field-complete record coerces), the output keeps exactly
the records passing the required-field check, in original order, each
normalized in place. -/
theorem C7_thm :
    ∀ (s sp : String) (qs out : List JVal),
      extractArraySpan s = some sp →
      jsonParse sp = some (.jarr qs) →
      processAll qs = .ok out →
      generateFromText s = specSurvivors qs := by
  intro s sp qs out hext hjp hpr
  simp only [generateFromText, hext, hjp, hpr]
  exact processAll_ok_spec hpr

/-- C7, witness: a batch of 3 in which exactly the middle record lacks
difficulty yields the 2 other records, in order. -/
theorem C7_wit :
    generateFromText "[\x7b\"question_content\": \"a\", \"question_type\": \"Essay\", \"difficulty\": 2, \"correct_answer\": \"x\"\x7d, \x7b\"question_content\": \"b\", \"question_type\": \"Essay\", \"correct_answer\": \"y\"\x7d, \x7b\"question_content\": \"c\", \"question_type\": \"Essay\", \"difficulty\": 4, \"correct_answer\": \"z\"\x7d]" =
      specSurvivors
        [.jobj [("question_content", .jstr "a"), ("question_type", .jstr "Essay"),
           ("difficulty", .jnum 2), ("correct_answer", .jstr "x")],
         .jobj [("question_content", .jstr "b"), ("question_type", .jstr "Essay"),
           ("correct_answer", .jstr "y")],
         .jobj [("question_content", .jstr "c"), ("question_type", .jstr "Essay"),
           ("difficulty", .jnum 4), ("correct_answer", .jstr "z")]] ∧
    (specSurvivors
        [.jobj [("question_content", .jstr "a"), ("question_type", .jstr "Essay"),
           ("difficulty", .jnum 2), ("correct_answer", .jstr "x")],
         .jobj [("question_content", .jstr "b"), ("question_type", .jstr "Essay"),
           ("correct_answer", .jstr "y")],
         .jobj [("question_content", .jstr "c"), ("question_type", .jstr "Essay"),
           ("difficulty", .jnum 4), ("correct_answer", .jstr "z")]]).length = 2 :=
  ⟨C7_thm
    "[\x7b\"question_content\": \"a\", \"question_type\": \"Essay\", \"difficulty\": 2, \"correct_answer\": \"x\"\x7d, \x7b\"question_content\": \"b\", \"question_type\": \"Essay\", \"correct_answer\": \"y\"\x7d, \x7b\"question_content\": \"c\", \"question_type\": \"Essay\", \"difficulty\": 4, \"correct_answer\": \"z\"\x7d]"
    "[\x7b\"question_content\": \"a\", \"question_type\": \"Essay\", \"difficulty\": 2, \"correct_answer\": \"x\"\x7d, \x7b\"question_content\": \"b\", \"question_type\": \"Essay\", \"correct_answer\": \"y\"\x7d, \x7b\"question_content\": \"c\", \"question_type\": \"Essay\", \"difficulty\": 4, \"correct_answer\": \"z\"\x7d]"
    [.jobj [("question_content", .jstr "a"), ("question_type", .jstr "Essay"),
       ("difficulty", .jnum 2), ("correct_answer", .jstr "x")],
     .jobj [("question_content", .jstr "b"), ("question_type", .jstr "Essay"),
       ("correct_answer", .jstr "y")],
     .jobj [("question_content", .jstr "c"), ("question_type", .jstr "Essay"),
       ("difficulty", .jnum 4), ("correct_answer", .jstr "z")]]
    [.jobj [("question_content", .jstr "a"), ("question_type", .jstr "Essay"),
       ("difficulty", .jnum 2), ("correct_answer", .jstr "x"),
       ("estimated_time", .jnum 5), ("student_level", .jstr "Intermediate")],
     .jobj [("question_content", .jstr "c"), ("question_type", .jstr "Essay"),
       ("difficulty", .jnum 4), ("correct_answer", .jstr "z"),
       ("estimated_time", .jnum 5), ("student_level", .jstr "Intermediate")]]
    rfl rfl rfl, rfl⟩

/-- C8: when the response holds no bracketed span, or the span does not
parse as JSON, generate_questions returns the empty list (the failure is
absorbed, never raised to the caller). -/
theorem C8_thm :
    ∀ s : String,
      (extractArraySpan s = none → generateFromText s = []) ∧
      (∀ sp : String, extractArraySpan s = some sp → jsonParse sp = none →
        generateFromText s = []) := by
  intro s
  constructor
  · intro h
    simp [generateFromText, h]
  · intro sp h hj
    simp [generateFromText, h, hj]

/-- C8, witness: the malformed batch input of the spec. -/
theorem C8_wit : generateFromText "not a json array at all" = [] :=
  (C8_thm "not a json array at all").1 rfl

/-- C9, counterexample: line 156 reassigns response_text to the
fence-stripped text, so the raw-text fallback prefixes the stripped text,
not the literal raw gateway response. -/
theorem C9_cex :
    analyzeResponse "```json not json ```" = (some 3, "Analysis (raw): not json") ∧
    "Analysis (raw): not json" ≠ "Analysis (raw): " ++ "```json not json ```" := by
  exact ⟨rfl, by decide⟩

/-- C9, amended: when both the direct JSON parse and the brace-span
extraction fail, the Evaluator returns difficulty exactly 3.0 and the
fence-stripped, whitespace-stripped response text prefixed with
"Analysis (raw): ". -/
theorem C9_thm :
    ∀ s : String, jsonParse (cleanText s) = none →
      Option.bind (braceSpan (cleanText s)) (fun sp => jsonParse sp) = none →
      analyzeResponse s = (some 3, "Analysis (raw): " ++ cleanText s) := by
  intro s hp hb
  rw [analyzeResponse_eq_fallback hp]
  unfold fallback
  rcases hbs : braceSpan (cleanText s) with _ | sp
  · rfl
  · rw [hbs] at hb
    simp only [Option.bind] at hb
    simp [hb]

/-- C9, witness: a spanless unparseable response. -/
theorem C9_wit : analyzeResponse "just text" = (some 3, "Analysis (raw): just text") :=
  C9_thm "just text" rfl rfl

/-- C10: if the parsed batch holds a record that passes the
required-field check but whose difficulty or estimated_time coercion
raises, the whole call returns the empty list, discarding every record. -/
theorem C10_thm :
    ∀ (s sp : String) (qs : List JVal) (q : JVal),
      extractArraySpan s = some sp →
      jsonParse sp = some (.jarr qs) →
      q ∈ qs →
      reqCheck q = .ok true →
      isErr (coerceElem q) = true →
      generateFromText s = [] := by
  intro s sp qs q hext hjp hmem hrc hce
  have herr := processAll_err_of_mem hmem hrc hce
  rcases hpr : processAll qs with e | out
  · simp [generateFromText, hext, hjp, hpr]
  · rw [hpr] at herr
    simp [isErr] at herr

/-- C10, witness: a batch of 2 whose first record is fully valid and
whose second carries difficulty "hard" returns the empty list. -/
theorem C10_wit :
    generateFromText "[\x7b\"question_content\": \"a\", \"question_type\": \"Essay\", \"difficulty\": 2, \"correct_answer\": \"x\"\x7d, \x7b\"question_content\": \"b\", \"question_type\": \"Essay\", \"difficulty\": \"hard\", \"correct_answer\": \"y\"\x7d]" = [] :=
  C10_thm
    "[\x7b\"question_content\": \"a\", \"question_type\": \"Essay\", \"difficulty\": 2, \"correct_answer\": \"x\"\x7d, \x7b\"question_content\": \"b\", \"question_type\": \"Essay\", \"difficulty\": \"hard\", \"correct_answer\": \"y\"\x7d]"
    "[\x7b\"question_content\": \"a\", \"question_type\": \"Essay\", \"difficulty\": 2, \"correct_answer\": \"x\"\x7d, \x7b\"question_content\": \"b\", \"question_type\": \"Essay\", \"difficulty\": \"hard\", \"correct_answer\": \"y\"\x7d]"
    [.jobj [("question_content", .jstr "a"), ("question_type", .jstr "Essay"),
       ("difficulty", .jnum 2), ("correct_answer", .jstr "x")],
     .jobj [("question_content", .jstr "b"), ("question_type", .jstr "Essay"),
       ("difficulty", .jstr "hard"), ("correct_answer", .jstr "y")]]
    (.jobj [("question_content", .jstr "b"), ("question_type", .jstr "Essay"),
       ("difficulty", .jstr "hard"), ("correct_answer", .jstr "y")])
    rfl rfl (List.Mem.tail _ (List.Mem.head _)) rfl rfl
